import Mathlib

/-!
Verification of the DPI simulator core (tools/dpi-simulator/dpi_simulator.py).

Byte strings are modelled as `List Nat` (one `Nat` per byte).  Indexed reads
`payload[i]` are modelled with `List.getD i d`, where `d` is an arbitrary
junk value standing for whatever an out-of-bounds access would produce; the
top-level functions fix `d = 0`, and the safety theorems show the result is
independent of `d` because every read in the source is bounds-checked first.

The packet path (`process_packet`, `_block_packet`, `_send_rst`,
`_apply_throttle`) is modelled as a pure state transformer returning the
updated statistics together with a trace of observable events: the sleep
performed by the throttle mode, the raw RST injection, and the verdict
handed back to the interception layer.  The wall clock and the success of
the raw send are external inputs collected in `Env`.
-/

namespace DPI

/-! ## Byte-level helpers -/

/-- Big-endian decoding of two consecutive bytes, mirroring
`struct.unpack('!H', payload[i:i+2])`. -/
def u16 (d : Nat) (p : List Nat) (i : Nat) : Nat :=
  256 * p.getD i d + p.getD (i + 1) d

/-- Big-endian decoding of four consecutive bytes, mirroring
`struct.unpack('!I', payload[i:i+4])`. -/
def u32 (d : Nat) (p : List Nat) (i : Nat) : Nat :=
  16777216 * p.getD i d + 65536 * p.getD (i + 1) d
    + 256 * p.getD (i + 2) d + p.getD (i + 3) d

/-- Big-endian encoding of a value into two bytes (used by the spec-side
ClientHello builder). -/
def u16be (n : Nat) : List Nat := [n / 256, n % 256]

/-- Big-endian encoding of a value into three bytes. -/
def u24be (n : Nat) : List Nat := [n / 65536, n / 256 % 256, n % 256]

/-- `bytes.decode('ascii', errors='ignore')`: non-ASCII bytes are dropped. -/
def asciiIgnore (l : List Nat) : List Nat := l.filter (fun b => b < 128)

/-- `str.lower()` on a single ASCII byte. -/
def lowerByte (b : Nat) : Nat := if 65 ≤ b ∧ b ≤ 90 then b + 32 else b

/-- `str.lower()` on a byte string. -/
def lowerStr (s : List Nat) : List Nat := s.map lowerByte

/-- `data.startswith(tok)` (first argument is the token). -/
def startsWith : List Nat → List Nat → Bool
  | [], _ => true
  | _ :: _, [] => false
  | t :: ts, c :: cs => t = c && startsWith ts cs

/-! ## DomainMatcher: `DPISimulator._is_domain_blocked` -/

/-- Mirrors `_is_domain_blocked`: lower-case the domain, test exact
membership in the blocklist, otherwise test `domain.endswith('.' + blocked)`
for each blocked entry. -/
def is_domain_blocked (blocked : List (List Nat)) (domain : List Nat) : Bool :=
  let d := lowerStr domain
  if blocked.contains d then true
  else blocked.any (fun b => (46 :: b).isSuffixOf d)

/-! ## SNI extractor: `DPISimulator._extract_sni`

The Python walks the ClientHello with a cursor `offset`; each straight-line
segment between bounds checks becomes one function below.  `sniInner` is the
body of the `ext_type == 0` branch (argument `o` is the offset right after
the 4-byte extension header, i.e. the Python `offset` after `offset += 4`);
the unused read of `sni_list_len` is elided. -/

def sniInner (d : Nat) (p : List Nat) (o : Nat) : Option (List Nat) :=
  if o + 2 > p.length then none
  else if o + 2 + 1 > p.length then none
  else if p.getD (o + 2) d = 0 then
    if o + 3 + 2 > p.length then none
    else if o + 5 + u16 d p (o + 3) ≤ p.length then
      some (asciiIgnore ((p.drop (o + 5)).take (u16 d p (o + 3))))
    else none
  else none

/-- The `while offset + 4 <= extensions_end and offset + 4 <= len(payload)`
loop over the extensions list. -/
def sniLoopAux (d : Nat) (p : List Nat) (offset extEnd : Nat) : Option (List Nat) :=
  if h : offset + 4 ≤ extEnd ∧ offset + 4 ≤ p.length then
    if u16 d p offset = 0 ∧ offset + 4 + u16 d p (offset + 2) ≤ p.length then
      sniInner d p (offset + 4)
    else
      sniLoopAux d p (offset + 4 + u16 d p (offset + 2)) extEnd
  else none
termination_by extEnd - offset
decreasing_by omega

/-- Cursor just past the compression-method list: read the 2-byte
extensions length and enter the extension loop. -/
def sniAtExtensions (d : Nat) (p : List Nat) (o3 : Nat) : Option (List Nat) :=
  if o3 + 2 > p.length then none
  else sniLoopAux d p (o3 + 2) (o3 + 2 + u16 d p o3)

/-- Cursor just past the cipher-suite list: read the 1-byte
compression-method list length and skip it. -/
def sniAfterCiphers (d : Nat) (p : List Nat) (o2 : Nat) : Option (List Nat) :=
  if o2 + 1 > p.length then none
  else sniAtExtensions d p (o2 + 1 + p.getD o2 d)

/-- Cursor just past the session id: read the 2-byte cipher-suite list
length and skip it. -/
def sniAfterSessionId (d : Nat) (p : List Nat) (o1 : Nat) : Option (List Nat) :=
  if o1 + 2 > p.length then none
  else sniAfterCiphers d p (o1 + 2 + u16 d p o1)

/-- `_extract_sni` with junk value `d` for out-of-bounds reads: length and
record-type checks, then the session-id length byte at offset 43. -/
def extract_sniAux (d : Nat) (p : List Nat) : Option (List Nat) :=
  if p.length < 43 then none
  else if p.getD 0 d ≠ 22 then none
  else if p.getD 5 d ≠ 1 then none
  else if 43 ≥ p.length then none
  else sniAfterSessionId d p (43 + 1 + p.getD 43 d)

/-- `DPISimulator._extract_sni`. -/
def extract_sni (p : List Nat) : Option (List Nat) := extract_sniAux 0 p

/-! ## Host extractor: `DPISimulator._extract_http_host`

The regex `Host:\s*([^\r\n]+)` (case-insensitive) is modelled directly:
`hostSearch` scans for the leftmost position where the whole pattern
matches; at a candidate position, `\s*` is greedy with backtracking, which
`tryWs` realises by trying the longest whitespace run first. -/

/-- Python `\s` (and `str.strip()` whitespace) on ASCII text: space, TAB,
LF, VT, FF, CR, and the separators FS/GS/RS/US (0x1c-0x1f). -/
def isWsB (c : Nat) : Bool :=
  c = 32 || c = 9 || c = 10 || c = 13 || c = 12 || c = 11
    || c = 28 || c = 29 || c = 30 || c = 31

/-- Greedy `[^\r\n]+` body: the longest CR/LF-free run. -/
def takeLine (l : List Nat) : List Nat := l.takeWhile (fun c => !(c == 13) && !(c == 10))

/-- The `([^\r\n]+)` group when `\s*` consumed exactly `k` characters:
succeeds iff a non-CR/LF character stands at position `k`. -/
def candAt (r : List Nat) (k : Nat) : Option (List Nat) :=
  match (r.drop k).head? with
  | some c => if c = 13 ∨ c = 10 then none else some (takeLine (r.drop k))
  | none => none

/-- Greedy `\s*` with backtracking: try `k`, then shorter runs. -/
def tryWs (r : List Nat) : Nat → Option (List Nat)
  | 0 => candAt r 0
  | k + 1 =>
    match candAt r (k + 1) with
    | some g => some g
    | none => tryWs r k

/-- Match `\s*([^\r\n]+)` at the start of `r`. -/
def hostGroup (r : List Nat) : Option (List Nat) :=
  tryWs r (r.takeWhile isWsB).length

/-- The literal `Host:` lowered. -/
def hostTok : List Nat := [104, 111, 115, 116, 58]

/-- Case-insensitive prefix test (first argument is the lowered token). -/
def ciStarts : List Nat → List Nat → Bool
  | [], _ => true
  | _ :: _, [] => false
  | t :: ts, c :: cs => t = lowerByte c && ciStarts ts cs

/-- `re.search`: leftmost position where the whole pattern matches. -/
def hostSearch : List Nat → Option (List Nat)
  | [] => none
  | c :: rest =>
    if ciStarts hostTok (c :: rest) then
      match hostGroup ((c :: rest).drop 5) with
      | some g => some g
      | none => hostSearch rest
    else hostSearch rest

/-- Python `str.strip()` restricted to ASCII whitespace. -/
def stripBytes (l : List Nat) : List Nat :=
  ((l.dropWhile isWsB).reverse.dropWhile isWsB).reverse

/-- The fixed method tokens `'GET '`, `'POST '`, `'HEAD '`, `'PUT '`,
`'DELETE '`, `'CONNECT '` as byte strings. -/
def httpMethods : List (List Nat) :=
  [[71, 69, 84, 32], [80, 79, 83, 84, 32], [72, 69, 65, 68, 32],
   [80, 85, 84, 32], [68, 69, 76, 69, 84, 69, 32], [67, 79, 78, 78, 69, 67, 84, 32]]

/-- `DPISimulator._extract_http_host`: decode permissively, require a
method prefix, search for the Host header, strip the value and drop a
trailing `:port`. -/
def extract_http_host (payload : List Nat) : Option (List Nat) :=
  let data := asciiIgnore payload
  if httpMethods.any (fun m => startsWith m data) then
    match hostSearch data with
    | some g =>
      let host := stripBytes g
      some (if host.contains 58 then host.takeWhile (fun c => !(c == 58)) else host)
    | none => none
  else none

/-! ## QUIC-Initial detector: `DPISimulator._is_quic_initial` -/

/-- `_is_quic_initial` with junk value `d` for out-of-bounds reads. -/
def is_quic_initialAux (d : Nat) (p : List Nat) : Bool :=
  if p.length < 6 then false
  else if p.getD 0 d &&& 128 = 0 then false
  else if p.getD 0 d &&& 64 = 0 then false
  else if (p.getD 0 d &&& 48) >>> 4 ≠ 0 then false
  else if u32 d p 1 = 0 then false
  else true

/-- `DPISimulator._is_quic_initial`. -/
def is_quic_initial (p : List Nat) : Bool := is_quic_initialAux 0 p

/-! ## Spec-side TLS ClientHello builder (for the functional-correctness
claim about the SNI extractor): a well-formed ClientHello carrying a
server_name extension, serialised per RFC 8446 framing. -/

/-- One serialised extension: 2-byte type, 2-byte length, data. -/
def extBytes (e : Nat × List Nat) : List Nat := u16be e.1 ++ u16be e.2.length ++ e.2

/-- A serialised extension list. -/
def extsJoin (es : List (Nat × List Nat)) : List Nat := (es.map extBytes).flatten

/-- The server_name extension data: name-list length, name type 0
(host_name), 2-byte hostname length, hostname. -/
def sniExtData (h : List Nat) : List Nat :=
  u16be (h.length + 3) ++ [0] ++ u16be h.length ++ h

/-- An abstract ClientHello carrying an SNI extension; `extsBefore` are the
extensions serialised ahead of server_name, `extsAfter` those after it. -/
structure ClientHello where
  clientVersion : List Nat
  random : List Nat
  sessionId : List Nat
  cipherSuites : List Nat
  compressionMethods : List Nat
  extsBefore : List (Nat × List Nat)
  hostname : List Nat
  extsAfter : List (Nat × List Nat)

/-- The serialised extensions block. -/
def ClientHello.exts (ch : ClientHello) : List Nat :=
  extsJoin ch.extsBefore ++ extBytes (0, sniExtData ch.hostname) ++ extsJoin ch.extsAfter

/-- The ClientHello body after the 4-byte handshake header. -/
def ClientHello.body (ch : ClientHello) : List Nat :=
  ch.clientVersion ++ ch.random ++ ch.sessionId.length :: (ch.sessionId
    ++ u16be ch.cipherSuites.length ++ ch.cipherSuites
    ++ ch.compressionMethods.length :: (ch.compressionMethods
    ++ u16be ch.exts.length ++ ch.exts))

/-- The full TLS record: record header (type 22, version, length), then the
handshake header (type 1, 3-byte length), then the body. -/
def ClientHello.encode (ch : ClientHello) : List Nat :=
  [22, 3, 3] ++ u16be (4 + ch.body.length) ++ [1] ++ u24be ch.body.length ++ ch.body

/-- All entries are bytes. -/
def bytesOk (l : List Nat) : Prop := ∀ b ∈ l, b < 256

/-- A serialisable extension: type and data length fit their fields. -/
def extOk (e : Nat × List Nat) : Prop := e.1 < 65536 ∧ e.2.length < 65536 ∧ bytesOk e.2

/-- Well-formedness of a ClientHello: every variable-length field fits its
length prefix, contents are bytes, the hostname is ASCII, and no extension
ahead of server_name reuses type 0. -/
structure ClientHello.WF (ch : ClientHello) : Prop where
  cv : ch.clientVersion.length = 2
  rnd : ch.random.length = 32
  sid : ch.sessionId.length < 256
  cs : ch.cipherSuites.length < 65536
  cm : ch.compressionMethods.length < 256
  host : ∀ b ∈ ch.hostname, b < 128
  hostLen : ch.hostname.length + 5 < 65536
  before : ∀ e ∈ ch.extsBefore, e.1 ≠ 0 ∧ extOk e
  after : ∀ e ∈ ch.extsAfter, extOk e
  extsLen : ch.exts.length < 65536
  bodyLen : ch.body.length + 4 < 65536
  bcv : bytesOk ch.clientVersion
  brnd : bytesOk ch.random
  bsid : bytesOk ch.sessionId
  bcs : bytesOk ch.cipherSuites
  bcm : bytesOk ch.compressionMethods

/-- Offset (in the serialised record) one past the hostname bytes: the
point where the SNI hostname is complete. -/
def ClientHello.sniEnd (ch : ClientHello) : Nat :=
  58 + ch.sessionId.length + ch.cipherSuites.length + ch.compressionMethods.length
    + (extsJoin ch.extsBefore).length + ch.hostname.length

/-! ## Data model: stats, packets, verdicts, events -/

/-- The four blocking modes. -/
inductive BlockMode
  | drop
  | rst
  | mitm
  | throttle
deriving DecidableEq

/-- The block types recorded in metrics ('SNI', 'HTTP', 'QUIC'). -/
inductive BlockType
  | SNI
  | HTTP
  | QUIC
deriving DecidableEq

/-- Per-domain metrics (`DomainMetrics` dataclass); timestamps are
abstracted to the `Nat` supplied by the environment. -/
structure DomainMetrics where
  blocked : Nat
  passed : Nat
  last_blocked : Option Nat
  block_types : List (BlockType × Nat)
deriving DecidableEq

/-- A fresh `DomainMetrics()`. -/
def DomainMetrics.init : DomainMetrics := ⟨0, 0, none, []⟩

/-- The aggregate statistics (`SimulatorStats` dataclass); the per-domain
dict is an insertion-ordered association list. -/
structure SimulatorStats where
  total_packets : Nat
  blocked_sni : Nat
  blocked_http : Nat
  blocked_quic : Nat
  passed : Nat
  start_time : Nat
  domain_metrics : List (List Nat × DomainMetrics)
deriving DecidableEq

/-- A fresh `SimulatorStats()` created at time `now`. -/
def SimulatorStats.init (now : Nat) : SimulatorStats := ⟨0, 0, 0, 0, 0, now, []⟩

/-- `defaultdict(int)` increment for the block-type histogram. -/
def btIncr : List (BlockType × Nat) → BlockType → List (BlockType × Nat)
  | [], t => [(t, 1)]
  | (k, v) :: rest, t =>
    if k = t then (k, v + 1) :: rest else (k, v) :: btIncr rest t

/-- Insertion-ordered dict update: create the entry with
`DomainMetrics()` if absent, then apply `f` to it. -/
def dmSet : List (List Nat × DomainMetrics) → List Nat →
    (DomainMetrics → DomainMetrics) → List (List Nat × DomainMetrics)
  | [], k, f => [(k, f DomainMetrics.init)]
  | (k', v) :: rest, k, f =>
    if k' = k then (k', f v) :: rest else (k', v) :: dmSet rest k f

/-- `DPISimulator._update_domain_metrics`. -/
def update_domain_metrics (s : SimulatorStats) (domain : List Nat) (blocked : Bool)
    (bt : Option BlockType) (now : Nat) : SimulatorStats :=
  { s with domain_metrics := dmSet s.domain_metrics domain (fun m =>
      if blocked then
        { m with blocked := m.blocked + 1, last_blocked := some now,
                 block_types := match bt with
                   | some t => btIncr m.block_types t
                   | none => m.block_types }
      else { m with passed := m.passed + 1 }) }

/-- The TCP header fields the simulator reads; `ack` is optional to model
a scapy layer whose acknowledgment field is absent. -/
structure TcpInfo where
  sport : Nat
  dport : Nat
  seq : Nat
  ack : Option Nat
deriving DecidableEq

/-- The UDP header fields the simulator reads. -/
structure UdpInfo where
  sport : Nat
  dport : Nat
deriving DecidableEq

/-- Transport layer of a parsed IP packet. -/
inductive Transport
  | tcp (t : TcpInfo)
  | udp (u : UdpInfo)
  | other
deriving DecidableEq

/-- A parsed IP packet: addresses, transport layer, and the Raw payload
when that layer is present. -/
structure IPPacket where
  src : List Nat
  dst : List Nat
  transport : Transport
  raw : Option (List Nat)
deriving DecidableEq

/-- The verdict returned to the interception layer. -/
inductive Verdict
  | accept
  | drop
deriving DecidableEq

/-- The synthesised TCP RST segment (`_send_rst`). -/
structure RstSegment where
  src : List Nat
  dst : List Nat
  sport : Nat
  dport : Nat
  seq : Nat
  ack : Nat
  rstFlag : Bool
  ackFlag : Bool
deriving DecidableEq

/-- Observable per-packet events, in program order. -/
inductive Event
  | sleep (d : ℚ)
  | inject (seg : RstSegment) (ok : Bool)
  | verdict (v : Verdict)
deriving DecidableEq

/-- The simulator configuration as the packet path reads it. -/
structure Config where
  mode : BlockMode
  blocked_domains : List (List Nat)
  throttle_delay : ℚ
deriving DecidableEq

/-- External inputs of one packet-processing call: the wall clock and
whether the raw RST send succeeds. -/
structure Env where
  now : Nat
  sendOk : Bool
deriving DecidableEq

/-- The RST segment `_send_rst` builds from a TCP packet: addresses and
ports swapped, `seq = tcp.ack if tcp.ack else 0`, `ack = tcp.seq + 1`,
flags `'RA'`. -/
def rstFor (ip : IPPacket) (t : TcpInfo) : RstSegment :=
  { src := ip.dst
    dst := ip.src
    sport := t.dport
    dport := t.sport
    seq := match t.ack with
      | some a => if a ≠ 0 then a else 0
      | none => 0
    ack := t.seq + 1
    rstFlag := true
    ackFlag := true }

/-- `DPISimulator._send_rst`: injects one RST for a TCP packet, nothing
otherwise; a send failure (`Env.sendOk = false`) is caught and logged. -/
def send_rst (env : Env) (ip : IPPacket) : List Event :=
  match ip.transport with
  | Transport.tcp t => [Event.inject (rstFor ip t) env.sendOk]
  | _ => []

/-- The synthetic bucket `'unknown'` used when no domain is known. -/
def unknownDomain : List Nat := [117, 110, 107, 110, 111, 119, 110]

/-- Python `domain or 'unknown'`. -/
def domainOrUnknown : Option (List Nat) → List Nat
  | some dn => if dn = [] then unknownDomain else dn
  | none => unknownDomain

/-- `DPISimulator._block_packet`: record metrics, then dispatch on the
current mode (drop / rst / mitm placeholder / throttle). -/
def block_packet (cfg : Config) (env : Env) (s : SimulatorStats) (ip : IPPacket)
    (bt : BlockType) (domain : Option (List Nat)) : SimulatorStats × List Event :=
  let s' := update_domain_metrics s (domainOrUnknown domain) true (some bt) env.now
  match cfg.mode with
  | BlockMode.drop => (s', [Event.verdict Verdict.drop])
  | BlockMode.rst => (s', send_rst env ip ++ [Event.verdict Verdict.drop])
  | BlockMode.mitm => (s', [Event.verdict Verdict.drop])
  | BlockMode.throttle =>
      (s', [Event.sleep cfg.throttle_delay, Event.verdict Verdict.accept])

/-- Fall-through outcome: count the packet as passed and accept it. -/
def passOutcome (s : SimulatorStats) : SimulatorStats × List Event :=
  ({ s with passed := s.passed + 1 }, [Event.verdict Verdict.accept])

/-- The `if tcp.dport == 80` stage of `process_packet` (reached when the
SNI stage did not block). -/
def httpStage (cfg : Config) (env : Env) (s : SimulatorStats) (ip : IPPacket)
    (t : TcpInfo) (payload : List Nat) : SimulatorStats × List Event :=
  if t.dport = 80 then
    match extract_http_host payload with
    | some host =>
      if host ≠ [] ∧ is_domain_blocked cfg.blocked_domains host = true then
        block_packet cfg env { s with blocked_http := s.blocked_http + 1 }
          ip BlockType.HTTP (some host)
      else passOutcome s
    | none => passOutcome s
  else passOutcome s

/-- `DPISimulator.process_packet`: `total_packets` is incremented before
the `try` block; `input = none` models `IP(packet.get_payload())` raising,
whose handler accepts the packet without touching any other counter. -/
def process_packet (cfg : Config) (env : Env) (s : SimulatorStats)
    (input : Option IPPacket) : SimulatorStats × List Event :=
  let s₀ := { s with total_packets := s.total_packets + 1 }
  match input with
  | none => (s₀, [Event.verdict Verdict.accept])
  | some ip =>
    match ip.transport with
    | Transport.tcp t =>
      match ip.raw with
      | some payload =>
        if t.dport = 443 then
          match extract_sni payload with
          | some sni =>
            if sni ≠ [] ∧ is_domain_blocked cfg.blocked_domains sni = true then
              block_packet cfg env { s₀ with blocked_sni := s₀.blocked_sni + 1 }
                ip BlockType.SNI (some sni)
            else httpStage cfg env s₀ ip t payload
          | none => httpStage cfg env s₀ ip t payload
        else httpStage cfg env s₀ ip t payload
      | none => passOutcome s₀
    | Transport.udp u =>
      if u.dport = 443 then
        match ip.raw with
        | some payload =>
          if is_quic_initial payload = true then
            block_packet cfg env { s₀ with blocked_quic := s₀.blocked_quic + 1 }
              ip BlockType.QUIC none
          else passOutcome s₀
        | none => passOutcome s₀
      else passOutcome s₀
    | Transport.other => passOutcome s₀

/-- A sequence of packets processed in order; the configuration (in
particular the mode, mutable through the control plane) and the
environment may differ per packet. -/
def processSeq (s : SimulatorStats) : List (Config × Env × Option IPPacket) → SimulatorStats
  | [] => s
  | (c, e, i) :: rest => processSeq (process_packet c e s i).1 rest

/-- Recognise verdict events. -/
def isVerdictEv : Event → Bool
  | Event.verdict _ => true
  | _ => false

/-- Recognise injection events. -/
def isInjectEv : Event → Bool
  | Event.inject _ _ => true
  | _ => false

/-- Number of verdicts in a trace. -/
def countVerdicts (evs : List Event) : Nat := (evs.filter isVerdictEv).length

/-- Number of RST injections in a trace. -/
def countInjects (evs : List Event) : Nat := (evs.filter isInjectEv).length

/-- Sum of the four per-outcome counters. -/
def counterSum (s : SimulatorStats) : Nat :=
  s.blocked_sni + s.blocked_http + s.blocked_quic + s.passed

/-- The stats invariant stated by the spec. -/
def statsInv (s : SimulatorStats) : Prop :=
  s.total_packets = s.blocked_sni + s.blocked_http + s.blocked_quic + s.passed

/-- A drop-mode configuration with an empty blocklist (for witnesses). -/
def cfg0 : Config := ⟨BlockMode.drop, [], 0⟩

/-- An rst-mode configuration with an empty blocklist. -/
def cfgRst : Config := ⟨BlockMode.rst, [], 0⟩

/-- A fixed environment for witnesses. -/
def env0 : Env := ⟨0, true⟩

/-- A six-byte QUIC Initial payload: long header + fixed bit, packet type
Initial, nonzero version. -/
def quicPayload : List Nat := [192, 0, 0, 0, 1, 0]

/-- TCP header fields of an HTTPS packet (witnesses). -/
def tcp443 : TcpInfo := ⟨1234, 443, 1000, some 2000⟩

/-- TCP header fields of a plain HTTP packet (witnesses). -/
def tcp80 : TcpInfo := ⟨1234, 80, 1000, some 2000⟩

/-- An rst-mode configuration blocking example.com. -/
def cfgRstEx : Config :=
  ⟨BlockMode.rst, [[101, 120, 97, 109, 112, 108, 101, 46, 99, 111, 109]], 0⟩

/-- A throttle-mode configuration blocking example.com, delay 2 seconds. -/
def cfgThr : Config :=
  ⟨BlockMode.throttle, [[101, 120, 97, 109, 112, 108, 101, 46, 99, 111, 109]], 2⟩

/-- A minimal well-formed ClientHello whose SNI is example.com. -/
def ch0 : ClientHello :=
  ⟨[3, 3], List.replicate 32 0, [], [0, 0], [0], [],
   [101, 120, 97, 109, 112, 108, 101, 46, 99, 111, 109], []⟩

/-- Spec-side well-formed HTTP request layout for the Host-extraction
claim: a method token, arbitrary middle bytes, then a `Host: ` header line
whose value is `host` with an optional `:port`, terminated by CRLF. -/
def httpReq (m mid host port tail : List Nat) (hasPort : Bool) : List Nat :=
  m ++ (mid ++ ([72, 111, 115, 116, 58, 32]
    ++ (host ++ ((if hasPort then 58 :: port else []) ++ (13 :: 10 :: tail)))))

/-- A minimal HTTP GET request with Host: example.com. -/
def httpPayload : List Nat :=
  [71, 69, 84, 32, 47, 32, 72, 84, 84, 80, 47, 49, 46, 49, 13, 10,
   72, 111, 115, 116, 58, 32,
   101, 120, 97, 109, 112, 108, 101, 46, 99, 111, 109, 13, 10, 13, 10]

/-! # Theorems -/

section Helpers

theorem getD_irrel {l : List Nat} {i : Nat} (d₁ d₂ : Nat) (h : i < l.length) :
    l.getD i d₁ = l.getD i d₂ := by
  induction l generalizing i with
  | nil => simp at h
  | cons x xs ih =>
    cases i with
    | zero => rfl
    | succ j => simp only [List.getD_cons_succ]; exact ih (by simpa using h)

theorem u16_irrel {p : List Nat} {i : Nat} (d₁ d₂ : Nat) (h : i + 1 < p.length) :
    u16 d₁ p i = u16 d₂ p i := by
  unfold u16
  rw [getD_irrel d₁ d₂ (by omega), getD_irrel d₁ d₂ h]

theorem getD_of_drop {p rest : List Nat} {i x : Nat} (d : Nat)
    (h : p.drop i = x :: rest) : p.getD i d = x := by
  induction p generalizing i with
  | nil => simp at h
  | cons a as ih =>
    cases i with
    | zero => simp_all
    | succ j =>
      simp only [List.drop_succ_cons] at h
      simpa using ih h

theorem drop_add {p : List Nat} (i j : Nat) : p.drop (i + j) = (p.drop i).drop j := by
  rw [List.drop_drop, Nat.add_comm]

theorem u16_of_drop {p rest : List Nat} {i n : Nat} (d : Nat)
    (h : p.drop i = u16be n ++ rest) : u16 d p i = n := by
  have h0 : p.getD i d = n / 256 := getD_of_drop d (by simpa [u16be] using h)
  have h1 : p.getD (i + 1) d = n % 256 := by
    have hh : p.drop (i + 1) = n % 256 :: rest := by
      rw [drop_add i 1, h]; simp [u16be]
    exact getD_of_drop d hh
  unfold u16
  rw [h0, h1, Nat.div_add_mod]

theorem drop_of_len {a b : List Nat} {n : Nat} (h : a.length = n) :
    (a ++ b).drop n = b := by
  subst h; exact List.drop_left a b

theorem getD_take {l : List Nat} {n i : Nat} (d : Nat) (h : i < n) :
    (l.take n).getD i d = l.getD i d := by
  induction l generalizing n i with
  | nil => simp
  | cons x xs ih =>
    cases n with
    | zero => omega
    | succ m =>
      cases i with
      | zero => simp
      | succ j => simpa using ih (by omega)

theorem asciiIgnore_all_lt {l : List Nat} (h : ∀ b ∈ l, b < 128) :
    asciiIgnore l = l := by
  unfold asciiIgnore
  induction l with
  | nil => rfl
  | cons x xs ih =>
    have hx : x < 128 := h x (by simp)
    simp only [List.filter_cons, decide_eq_true_eq]
    rw [if_pos hx, ih (fun b hb => h b (by simp [hb]))]

end Helpers

theorem is_domain_blocked_iff (B : List (List Nat)) (dom : List Nat) :
    is_domain_blocked B dom = true ↔
      lowerStr dom ∈ B ∨ ∃ b ∈ B, (46 :: b) <:+ lowerStr dom := by
  unfold is_domain_blocked
  by_cases h : lowerStr dom ∈ B
  · simp [h, List.contains, List.elem_iff]
  · rw [if_neg (by simpa [List.contains, List.elem_iff] using h)]
    simp [h, List.any_eq_true, List.isSuffixOf_iff_suffix]

/-- Claim C4: `is_blocked` lower-cases the input and returns true iff the
lowered domain is an exact member of the blocklist or ends with `"." + b`
for some entry `b`; with "example.com" blocked, "sub.example.com" is
blocked while "evilexample.com" is not; and the result is invariant under
reordering of the blocklist. -/
theorem C4_domain_matcher (B B' : List (List Nat)) (dom : List Nat)
    (hperm : B.Perm B') :
    (is_domain_blocked B dom = true ↔
      lowerStr dom ∈ B ∨ ∃ b ∈ B, (46 :: b) <:+ lowerStr dom) ∧
    is_domain_blocked B dom = is_domain_blocked B' dom ∧
    is_domain_blocked [[101, 120, 97, 109, 112, 108, 101, 46, 99, 111, 109]]
      [115, 117, 98, 46, 101, 120, 97, 109, 112, 108, 101, 46, 99, 111, 109] = true ∧
    is_domain_blocked [[101, 120, 97, 109, 112, 108, 101, 46, 99, 111, 109]]
      [101, 118, 105, 108, 101, 120, 97, 109, 112, 108, 101, 46, 99, 111, 109] = false := by
  refine ⟨is_domain_blocked_iff B dom, ?_, by decide, by decide⟩
  have key : ∀ (X Y : List (List Nat)), X.Perm Y →
      is_domain_blocked X dom = true → is_domain_blocked Y dom = true := by
    intro X Y hXY hX
    rw [is_domain_blocked_iff] at hX ⊢
    rcases hX with h | ⟨b, hb, hs⟩
    · exact Or.inl (hXY.mem_iff.mp h)
    · exact Or.inr ⟨b, hXY.mem_iff.mp hb, hs⟩
  by_cases h1 : is_domain_blocked B dom = true
  · rw [h1, key B B' hperm h1]
  · by_cases h2 : is_domain_blocked B' dom = true
    · exact absurd (key B' B hperm.symm h2) h1
    · rw [Bool.not_eq_true] at h1 h2
      rw [h1, h2]

/-- Witness for C4 at a concrete blocklist and domain. -/
theorem C4_domain_matcher_witness :
    (is_domain_blocked [[97]] [97] = true ↔
      lowerStr [97] ∈ [[97]] ∨ ∃ b ∈ [[97]], (46 :: b) <:+ lowerStr [97]) ∧
    is_domain_blocked [[97]] [97] = is_domain_blocked [[97]] [97] ∧
    is_domain_blocked [[101, 120, 97, 109, 112, 108, 101, 46, 99, 111, 109]]
      [115, 117, 98, 46, 101, 120, 97, 109, 112, 108, 101, 46, 99, 111, 109] = true ∧
    is_domain_blocked [[101, 120, 97, 109, 112, 108, 101, 46, 99, 111, 109]]
      [101, 118, 105, 108, 101, 120, 97, 109, 112, 108, 101, 46, 99, 111, 109] = false :=
  C4_domain_matcher [[97]] [[97]] [97] (List.Perm.refl _)

/-! ## Per-packet bookkeeping lemmas -/

theorem countVerdicts_block (cfg : Config) (env : Env) (s : SimulatorStats)
    (ip : IPPacket) (bt : BlockType) (dom : Option (List Nat)) :
    countVerdicts (block_packet cfg env s ip bt dom).2 = 1 := by
  obtain ⟨src, dst, tr, raw⟩ := ip
  unfold block_packet send_rst countVerdicts
  cases cfg.mode <;> cases tr <;> simp [isVerdictEv]

theorem countVerdicts_pass (s : SimulatorStats) :
    countVerdicts (passOutcome s).2 = 1 := by
  simp [passOutcome, countVerdicts, isVerdictEv]

theorem countVerdicts_http (cfg : Config) (env : Env) (s : SimulatorStats)
    (ip : IPPacket) (t : TcpInfo) (payload : List Nat) :
    countVerdicts (httpStage cfg env s ip t payload).2 = 1 := by
  unfold httpStage
  repeat' split
  all_goals first
    | apply countVerdicts_block
    | apply countVerdicts_pass

theorem block_total (cfg : Config) (env : Env) (s : SimulatorStats)
    (ip : IPPacket) (bt : BlockType) (dom : Option (List Nat)) :
    (block_packet cfg env s ip bt dom).1.total_packets = s.total_packets := by
  unfold block_packet update_domain_metrics
  cases cfg.mode <;> simp

theorem block_counterSum (cfg : Config) (env : Env) (s : SimulatorStats)
    (ip : IPPacket) (bt : BlockType) (dom : Option (List Nat)) :
    counterSum (block_packet cfg env s ip bt dom).1 = counterSum s := by
  unfold block_packet update_domain_metrics counterSum
  cases cfg.mode <;> simp

theorem httpStage_total (cfg : Config) (env : Env) (s : SimulatorStats)
    (ip : IPPacket) (t : TcpInfo) (payload : List Nat) :
    (httpStage cfg env s ip t payload).1.total_packets = s.total_packets := by
  unfold httpStage
  repeat' split
  all_goals first
    | (rw [block_total])
    | (simp only [passOutcome])

theorem httpStage_counterSum (cfg : Config) (env : Env) (s : SimulatorStats)
    (ip : IPPacket) (t : TcpInfo) (payload : List Nat) :
    counterSum (httpStage cfg env s ip t payload).1 = counterSum s + 1 := by
  unfold httpStage
  repeat' split
  all_goals first
    | ((rw [block_counterSum]; simp only [counterSum]) <;> omega)
    | ((simp only [passOutcome, counterSum]) <;> omega)

theorem process_total (cfg : Config) (env : Env) (s : SimulatorStats)
    (input : Option IPPacket) :
    (process_packet cfg env s input).1.total_packets = s.total_packets + 1 := by
  cases input with
  | none => simp [process_packet]
  | some ip =>
    simp only [process_packet]
    repeat' split
    all_goals first
      | (rw [block_total])
      | (rw [httpStage_total])
      | (simp only [passOutcome])

theorem process_counterSum (cfg : Config) (env : Env) (s : SimulatorStats)
    (input : Option IPPacket) :
    counterSum (process_packet cfg env s input).1
      = counterSum s + (if input = none then 0 else 1) := by
  cases input with
  | none => simp [process_packet, counterSum]
  | some ip =>
    rw [if_neg (by simp)]
    simp only [process_packet]
    repeat' split
    all_goals first
      | ((rw [block_counterSum]; simp only [counterSum]) <;> omega)
      | ((rw [httpStage_counterSum]; simp only [counterSum]) <;> omega)
      | ((simp only [passOutcome, counterSum]) <;> omega)

/-! ## C2: fail-open, exactly one verdict per packet -/

/-- Claim C2: every call of `process_packet` yields exactly one verdict,
and when parsing the packet raised (modelled by input `none`) that verdict
is a pass-through accept; the per-packet path is a total function, so no
error propagates to the caller. -/
theorem C2_fail_open (cfg : Config) (env : Env) (s : SimulatorStats)
    (input : Option IPPacket) :
    countVerdicts (process_packet cfg env s input).2 = 1 ∧
    (input = none →
      (process_packet cfg env s input).2 = [Event.verdict Verdict.accept]) := by
  constructor
  · cases input with
    | none => simp [process_packet, countVerdicts, isVerdictEv]
    | some ip =>
      simp only [process_packet]
      repeat' split
      all_goals first
        | apply countVerdicts_block
        | apply countVerdicts_http
        | apply countVerdicts_pass
  · intro h
    subst h
    simp [process_packet]

/-- Witness for C2: a packet whose parse raised is accepted with exactly
one verdict. -/
theorem C2_fail_open_witness :
    countVerdicts (process_packet cfg0 env0 (SimulatorStats.init 0) none).2 = 1 ∧
    (process_packet cfg0 env0 (SimulatorStats.init 0) none).2
      = [Event.verdict Verdict.accept] :=
  ⟨(C2_fail_open cfg0 env0 (SimulatorStats.init 0) none).1,
   (C2_fail_open cfg0 env0 (SimulatorStats.init 0) none).2 rfl⟩

/-! ## C1: the counter invariant -/

/-- Counterexample to claim C1 as stated: a single malformed packet (its
parse raises) increments `total_packets` but none of the four outcome
counters, so the equation fails. -/
theorem C1_counterexample :
    ¬ statsInv (processSeq (SimulatorStats.init 0) [(cfg0, env0, none)]) := by
  simp [processSeq, process_packet, statsInv, SimulatorStats.init]

/-- Claim C1 as amended: for every sequence of packets each of which
parses without an exception (any modes, any payloads), the equation
`total_packets = blocked_sni + blocked_http + blocked_quic + passed`
holds after each packet. -/
theorem C1_amended (steps : List (Config × Env × Option IPPacket)) (n : Nat)
    (hok : ∀ x ∈ steps, x.2.2 ≠ none) :
    statsInv (processSeq (SimulatorStats.init n) steps) := by
  have step : ∀ (c : Config) (e : Env) (s : SimulatorStats) (i : Option IPPacket),
      i ≠ none → statsInv s → statsInv (process_packet c e s i).1 := by
    intro c e s i hi hs
    have h1 := process_total c e s i
    have h2 := process_counterSum c e s i
    rw [if_neg hi] at h2
    unfold statsInv counterSum at *
    omega
  have main : ∀ (l : List (Config × Env × Option IPPacket)) (s : SimulatorStats),
      (∀ x ∈ l, x.2.2 ≠ none) → statsInv s → statsInv (processSeq s l) := by
    intro l
    induction l with
    | nil => intro s _ hs; exact hs
    | cons x rest ih =>
      intro s hl hs
      obtain ⟨c, e, i⟩ := x
      exact ih _ (fun y hy => hl y (List.mem_cons_of_mem _ hy))
        (step c e s i (hl _ (List.mem_cons_self _ _)) hs)
  exact main steps _ hok (by simp [statsInv, SimulatorStats.init])

/-- Witness for the amended C1 at a concrete one-packet sequence. -/
theorem C1_amended_witness :
    statsInv (processSeq (SimulatorStats.init 0)
      [(cfg0, env0, some ⟨[], [], Transport.other, none⟩)]) :=
  C1_amended [(cfg0, env0, some ⟨[], [], Transport.other, none⟩)] 0 (by simp)

/-! ## C10: per-domain passed counter never incremented by the packet path -/

theorem dmSet_passed {m : List (List Nat × DomainMetrics)} {k : List Nat}
    {f : DomainMetrics → DomainMetrics}
    (hm : ∀ q ∈ m, q.2.passed = 0) (hf : ∀ x, x.passed = 0 → (f x).passed = 0) :
    ∀ q ∈ dmSet m k f, q.2.passed = 0 := by
  induction m with
  | nil =>
    intro q hq
    simp only [dmSet, List.mem_singleton] at hq
    subst hq
    exact hf _ rfl
  | cons p rest ih =>
    intro q hq
    obtain ⟨k', v⟩ := p
    simp only [dmSet] at hq
    by_cases he : k' = k
    · rw [if_pos he] at hq
      rcases List.mem_cons.mp hq with h | h
      · subst h; exact hf v (hm (k', v) (by simp))
      · exact hm q (by simp [h])
    · rw [if_neg he] at hq
      rcases List.mem_cons.mp hq with h | h
      · subst h; exact hm (k', v) (by simp)
      · exact ih (fun r hr => hm r (by simp [hr])) q h

theorem block_passed_zero (cfg : Config) (env : Env) (s : SimulatorStats)
    (ip : IPPacket) (bt : BlockType) (dom : Option (List Nat))
    (h : ∀ q ∈ s.domain_metrics, q.2.passed = 0) :
    ∀ q ∈ (block_packet cfg env s ip bt dom).1.domain_metrics, q.2.passed = 0 := by
  have hd : ∀ q ∈ (update_domain_metrics s (domainOrUnknown dom) true
      (some bt) env.now).domain_metrics, q.2.passed = 0 := by
    simp only [update_domain_metrics]
    exact dmSet_passed h (fun x hx => by simp [hx])
  unfold block_packet
  cases cfg.mode <;> exact hd

theorem httpStage_passed_zero (cfg : Config) (env : Env) (s : SimulatorStats)
    (ip : IPPacket) (t : TcpInfo) (payload : List Nat)
    (h : ∀ q ∈ s.domain_metrics, q.2.passed = 0) :
    ∀ q ∈ (httpStage cfg env s ip t payload).1.domain_metrics, q.2.passed = 0 := by
  unfold httpStage
  repeat' split
  all_goals first
    | (apply block_passed_zero; simpa using h)
    | (simpa [passOutcome] using h)

theorem process_passed_zero (cfg : Config) (env : Env) (s : SimulatorStats)
    (input : Option IPPacket)
    (h : ∀ q ∈ s.domain_metrics, q.2.passed = 0) :
    ∀ q ∈ (process_packet cfg env s input).1.domain_metrics, q.2.passed = 0 := by
  cases input with
  | none => simpa [process_packet] using h
  | some ip =>
    simp only [process_packet]
    repeat' split
    all_goals first
      | (apply block_passed_zero; simpa using h)
      | (apply httpStage_passed_zero; simpa using h)
      | (simpa [passOutcome] using h)

/-- Claim C10: starting from fresh stats, after any sequence of processed
packets every entry of the per-domain metrics map has `passed = 0` — the
packet path only ever records blocked observations. -/
theorem C10_per_domain_passed (steps : List (Config × Env × Option IPPacket))
    (n : Nat) :
    ∀ q ∈ (processSeq (SimulatorStats.init n) steps).domain_metrics,
      q.2.passed = 0 := by
  have main : ∀ (l : List (Config × Env × Option IPPacket)) (s : SimulatorStats),
      (∀ q ∈ s.domain_metrics, q.2.passed = 0) →
      ∀ q ∈ (processSeq s l).domain_metrics, q.2.passed = 0 := by
    intro l
    induction l with
    | nil => intro s hs; exact hs
    | cons x rest ih =>
      intro s hs
      obtain ⟨c, e, i⟩ := x
      exact ih _ (process_passed_zero c e s i hs)
  exact main steps _ (by simp [SimulatorStats.init])

/-- Witness for C10: one blocked QUIC packet creates the synthetic
"unknown" entry, whose passed counter is zero. -/
theorem C10_per_domain_passed_witness :
    ((unknownDomain, (⟨1, 0, some 0, [(BlockType.QUIC, 1)]⟩ : DomainMetrics)) :
        List Nat × DomainMetrics).2.passed = 0 :=
  C10_per_domain_passed
    [(cfg0, env0, some ⟨[], [], Transport.udp ⟨9, 443⟩, some quicPayload⟩)] 0
    _ (by decide)

/-! ## C5: RST mode -/

/-- Counterexample to claim C5 as stated: in rst mode a blocked QUIC
packet (UDP, hence no TCP layer for `_send_rst` to answer) is dropped with
zero RST injections, not exactly one. -/
theorem C5_counterexample :
    countInjects (process_packet cfgRst env0 (SimulatorStats.init 0)
      (some ⟨[10], [11], Transport.udp ⟨9, 443⟩, some quicPayload⟩)).2 = 0 ∧
    (process_packet cfgRst env0 (SimulatorStats.init 0)
      (some ⟨[10], [11], Transport.udp ⟨9, 443⟩, some quicPayload⟩)).1.blocked_quic = 1 := by
  decide

/-- Claim C5 as amended: in rst mode every blocked TCP packet (SNI or Host
match) yields a trace with exactly one RST injection followed by exactly
one drop verdict, the injected segment having addresses and ports swapped,
`seq` = the original acknowledgment number (0 if absent), `ack` = the
original sequence number + 1 and flags RST+ACK; the verdict is drop
whether or not the raw send succeeds (`env.sendOk` is arbitrary); a
blocked non-TCP (QUIC) packet is dropped with no injection. -/
theorem C5_amended (cfg : Config) (env : Env) (s : SimulatorStats)
    (src dst : List Nat) (t : TcpInfo) (payload : List Nat)
    (hmode : cfg.mode = BlockMode.rst) :
    (∀ sni, t.dport = 443 → extract_sni payload = some sni → sni ≠ [] →
      is_domain_blocked cfg.blocked_domains sni = true →
      (process_packet cfg env s (some ⟨src, dst, Transport.tcp t, some payload⟩)).2
        = [Event.inject (rstFor ⟨src, dst, Transport.tcp t, some payload⟩ t) env.sendOk,
           Event.verdict Verdict.drop]) ∧
    (∀ host, t.dport = 80 → extract_http_host payload = some host → host ≠ [] →
      is_domain_blocked cfg.blocked_domains host = true →
      (process_packet cfg env s (some ⟨src, dst, Transport.tcp t, some payload⟩)).2
        = [Event.inject (rstFor ⟨src, dst, Transport.tcp t, some payload⟩ t) env.sendOk,
           Event.verdict Verdict.drop]) ∧
    ((rstFor ⟨src, dst, Transport.tcp t, some payload⟩ t).src = dst ∧
     (rstFor ⟨src, dst, Transport.tcp t, some payload⟩ t).dst = src ∧
     (rstFor ⟨src, dst, Transport.tcp t, some payload⟩ t).sport = t.dport ∧
     (rstFor ⟨src, dst, Transport.tcp t, some payload⟩ t).dport = t.sport ∧
     (rstFor ⟨src, dst, Transport.tcp t, some payload⟩ t).seq = t.ack.getD 0 ∧
     (rstFor ⟨src, dst, Transport.tcp t, some payload⟩ t).ack = t.seq + 1 ∧
     (rstFor ⟨src, dst, Transport.tcp t, some payload⟩ t).rstFlag = true ∧
     (rstFor ⟨src, dst, Transport.tcp t, some payload⟩ t).ackFlag = true) ∧
    (∀ (u : UdpInfo) (qp : List Nat), u.dport = 443 → is_quic_initial qp = true →
      (process_packet cfg env s (some ⟨src, dst, Transport.udp u, some qp⟩)).2
        = [Event.verdict Verdict.drop]) := by
  refine ⟨?_, ?_, ⟨rfl, rfl, rfl, rfl, ?_, rfl, rfl, rfl⟩, ?_⟩
  · intro sni h443 hsni hne hb
    simp [process_packet, h443, hsni, hne, hb, block_packet, hmode, send_rst]
  · intro host h80 hh hne hb
    simp [process_packet, h80, httpStage, hh, hne, hb, block_packet, hmode, send_rst]
  · cases ha : t.ack with
    | none => simp [rstFor, ha]
    | some a =>
      by_cases h0 : a = 0
      · simp [rstFor, ha, h0]
      · simp [rstFor, ha, h0]
  · intro u qp hu hq
    simp [process_packet, hu, hq, block_packet, hmode, send_rst]

/-! ## C3: the SNI extractor on well-formed ClientHello payloads -/

theorem drop2_u16be (n : Nat) (R : List Nat) : (u16be n ++ R).drop 2 = R := by
  simp [u16be]

theorem take_append_of_le {a b : List Nat} {k : Nat} (h : a.length ≤ k) :
    (a ++ b).take k = a ++ b.take (k - a.length) := by
  rw [List.take_append_eq_append_take, List.take_of_length_le h]

theorem u16_take {l : List Nat} {n i : Nat} (d : Nat) (h : i + 2 ≤ n) :
    u16 d (l.take n) i = u16 d l i := by
  unfold u16
  rw [getD_take d (by omega), getD_take d (by omega)]

theorem extBytes_eq (e : Nat × List Nat) :
    extBytes e = u16be e.1 ++ (u16be e.2.length ++ e.2) := by
  simp [extBytes]

theorem extsJoin_cons (e : Nat × List Nat) (es : List (Nat × List Nat)) :
    extsJoin (e :: es) = extBytes e ++ extsJoin es := by
  simp [extsJoin]

theorem extsJoin_cons_length (e : Nat × List Nat) (es : List (Nat × List Nat)) :
    (extsJoin (e :: es)).length = 4 + e.2.length + (extsJoin es).length := by
  rw [extsJoin_cons]
  simp [extBytes, u16be]
  omega

theorem sniExtData_length (h : List Nat) : (sniExtData h).length = h.length + 5 := by
  simp [sniExtData, u16be]

theorem body_length (ch : ClientHello) (wf : ch.WF) :
    ch.body.length = 40 + ch.sessionId.length + ch.cipherSuites.length
      + ch.compressionMethods.length + ch.exts.length := by
  simp [ClientHello.body, wf.cv, wf.rnd, u16be]
  omega

theorem encode_length (ch : ClientHello) (wf : ch.WF) :
    ch.encode.length = 49 + ch.sessionId.length + ch.cipherSuites.length
      + ch.compressionMethods.length + ch.exts.length := by
  simp [ClientHello.encode, u16be, u24be, body_length ch wf]
  omega

theorem exts_length (ch : ClientHello) :
    ch.exts.length = (extsJoin ch.extsBefore).length + 9 + ch.hostname.length
      + (extsJoin ch.extsAfter).length := by
  simp [ClientHello.exts, extBytes, sniExtData_length, u16be]
  omega

theorem encode_cons (ch : ClientHello) : ch.encode
    = 22 :: 3 :: 3 :: ((4 + ch.body.length) / 256) :: ((4 + ch.body.length) % 256)
      :: 1 :: (ch.body.length / 65536) :: (ch.body.length / 256 % 256)
      :: (ch.body.length % 256) :: ch.body := by
  simp [ClientHello.encode, u16be, u24be]

theorem read0 (ch : ClientHello) (d : Nat) : ch.encode.getD 0 d = 22 := by
  rw [encode_cons]; rfl

theorem read5 (ch : ClientHello) (d : Nat) : ch.encode.getD 5 d = 1 := by
  rw [encode_cons]; rfl

theorem encode_drop43 (ch : ClientHello) (wf : ch.WF) :
    ch.encode.drop 43 = ch.sessionId.length :: (ch.sessionId
      ++ (u16be ch.cipherSuites.length ++ (ch.cipherSuites
      ++ (ch.compressionMethods.length :: (ch.compressionMethods
      ++ (u16be ch.exts.length ++ ch.exts)))))) := by
  have hsplit : ch.encode = (22 :: 3 :: 3 :: ((4 + ch.body.length) / 256)
      :: ((4 + ch.body.length) % 256) :: 1 :: (ch.body.length / 65536)
      :: (ch.body.length / 256 % 256) :: (ch.body.length % 256)
      :: (ch.clientVersion ++ ch.random))
      ++ (ch.sessionId.length :: (ch.sessionId ++ (u16be ch.cipherSuites.length
        ++ (ch.cipherSuites ++ (ch.compressionMethods.length :: (ch.compressionMethods
        ++ (u16be ch.exts.length ++ ch.exts))))))) := by
    rw [encode_cons]
    simp [ClientHello.body]
  rw [hsplit]
  exact drop_of_len (by simp [wf.cv, wf.rnd])

theorem read_sid (ch : ClientHello) (wf : ch.WF) (d : Nat) :
    ch.encode.getD 43 d = ch.sessionId.length :=
  getD_of_drop d (encode_drop43 ch wf)

theorem encode_drop_o1 (ch : ClientHello) (wf : ch.WF) :
    ch.encode.drop (43 + 1 + ch.sessionId.length)
      = u16be ch.cipherSuites.length ++ (ch.cipherSuites
        ++ (ch.compressionMethods.length :: (ch.compressionMethods
        ++ (u16be ch.exts.length ++ ch.exts)))) := by
  rw [show 43 + 1 + ch.sessionId.length = 43 + (ch.sessionId.length + 1) by omega,
    drop_add, encode_drop43 ch wf, List.drop_succ_cons]
  exact drop_of_len rfl

theorem read_cs (ch : ClientHello) (wf : ch.WF) (d : Nat) :
    u16 d ch.encode (43 + 1 + ch.sessionId.length) = ch.cipherSuites.length :=
  u16_of_drop d (encode_drop_o1 ch wf)

theorem encode_drop_o2 (ch : ClientHello) (wf : ch.WF) :
    ch.encode.drop (43 + 1 + ch.sessionId.length + 2 + ch.cipherSuites.length)
      = ch.compressionMethods.length :: (ch.compressionMethods
        ++ (u16be ch.exts.length ++ ch.exts)) := by
  rw [show 43 + 1 + ch.sessionId.length + 2 + ch.cipherSuites.length
      = (43 + 1 + ch.sessionId.length) + (2 + ch.cipherSuites.length) by omega,
    drop_add, encode_drop_o1 ch wf, drop_add 2 ch.cipherSuites.length, drop2_u16be]
  exact drop_of_len rfl

theorem read_cm (ch : ClientHello) (wf : ch.WF) (d : Nat) :
    ch.encode.getD (43 + 1 + ch.sessionId.length + 2 + ch.cipherSuites.length) d
      = ch.compressionMethods.length :=
  getD_of_drop d (encode_drop_o2 ch wf)

theorem encode_drop_o3 (ch : ClientHello) (wf : ch.WF) :
    ch.encode.drop (43 + 1 + ch.sessionId.length + 2 + ch.cipherSuites.length
        + 1 + ch.compressionMethods.length)
      = u16be ch.exts.length ++ ch.exts := by
  rw [show 43 + 1 + ch.sessionId.length + 2 + ch.cipherSuites.length + 1
        + ch.compressionMethods.length
      = (43 + 1 + ch.sessionId.length + 2 + ch.cipherSuites.length)
        + (ch.compressionMethods.length + 1) by omega,
    drop_add, encode_drop_o2 ch wf, List.drop_succ_cons]
  exact drop_of_len rfl

theorem read_extlen (ch : ClientHello) (wf : ch.WF) (d : Nat) :
    u16 d ch.encode (43 + 1 + ch.sessionId.length + 2 + ch.cipherSuites.length
      + 1 + ch.compressionMethods.length) = ch.exts.length :=
  u16_of_drop d (encode_drop_o3 ch wf)

theorem encode_drop_off0 (ch : ClientHello) (wf : ch.WF) :
    ch.encode.drop (43 + 1 + ch.sessionId.length + 2 + ch.cipherSuites.length
        + 1 + ch.compressionMethods.length + 2)
      = extsJoin ch.extsBefore ++ (extBytes (0, sniExtData ch.hostname)
        ++ extsJoin ch.extsAfter) := by
  rw [show 43 + 1 + ch.sessionId.length + 2 + ch.cipherSuites.length + 1
        + ch.compressionMethods.length + 2
      = (43 + 1 + ch.sessionId.length + 2 + ch.cipherSuites.length + 1
        + ch.compressionMethods.length) + 2 by omega,
    drop_add, encode_drop_o3 ch wf, drop2_u16be]
  simp [ClientHello.exts]

theorem sniLoop_skip (d : Nat) (p : List Nat) (pre : List (Nat × List Nat)) :
    ∀ (off extEnd : Nat) (rest : List Nat),
      p.drop off = extsJoin pre ++ rest →
      (∀ e ∈ pre, e.1 ≠ 0) →
      off + (extsJoin pre).length + 4 ≤ extEnd →
      extEnd ≤ p.length →
      sniLoopAux d p off extEnd = sniLoopAux d p (off + (extsJoin pre).length) extEnd := by
  induction pre with
  | nil =>
    intro off extEnd rest _ _ _ _
    simp [extsJoin]
  | cons e es ih =>
    intro off extEnd rest hdrop hne hend hlen
    have hlenE := extsJoin_cons_length e es
    have hcond : off + 4 ≤ extEnd ∧ off + 4 ≤ p.length := ⟨by omega, by omega⟩
    have hdropE : p.drop off
        = u16be e.1 ++ (u16be e.2.length ++ (e.2 ++ (extsJoin es ++ rest))) := by
      rw [hdrop, extsJoin_cons, extBytes_eq]
      simp
    have hT : u16 d p off = e.1 := u16_of_drop d hdropE
    have hdrop2 : p.drop (off + 2)
        = u16be e.2.length ++ (e.2 ++ (extsJoin es ++ rest)) := by
      rw [drop_add, hdropE, drop2_u16be]
    have hL : u16 d p (off + 2) = e.2.length := u16_of_drop d hdrop2
    have hne1 : e.1 ≠ 0 := hne e (by simp)
    rw [sniLoopAux, dif_pos hcond,
      if_neg (fun hc => hne1 (hT ▸ hc.1)), hL]
    have hdrop3 : p.drop (off + 4 + e.2.length) = extsJoin es ++ rest := by
      rw [show off + 4 + e.2.length = (off + 2) + (2 + e.2.length) by omega,
        drop_add, hdrop2, drop_add 2 e.2.length, drop2_u16be]
      exact drop_of_len rfl
    rw [show off + (extsJoin (e :: es)).length
        = (off + 4 + e.2.length) + (extsJoin es).length by omega]
    exact ih (off + 4 + e.2.length) extEnd rest hdrop3
      (fun x hx => hne x (by simp [hx])) (by omega) hlen

theorem sniLoop_hit (d : Nat) (p : List Nat) (off extEnd : Nat) (hst rest : List Nat)
    (hdrop : p.drop off = extBytes (0, sniExtData hst) ++ rest)
    (hend : off + 4 ≤ extEnd) (hh : ∀ b ∈ hst, b < 128) :
    sniLoopAux d p off extEnd = some hst := by
  have hplen : p.length = off + 9 + hst.length + rest.length := by
    have hl := congrArg List.length hdrop
    simp [extBytes, sniExtData_length, u16be] at hl
    omega
  have hdropE : p.drop off = u16be 0 ++ (u16be (hst.length + 5)
      ++ (u16be (hst.length + 3) ++ (0 :: (u16be hst.length ++ (hst ++ rest))))) := by
    rw [hdrop, extBytes_eq, sniExtData_length]
    simp [sniExtData]
  have hT : u16 d p off = 0 := u16_of_drop d hdropE
  have hdrop2 : p.drop (off + 2) = u16be (hst.length + 5)
      ++ (u16be (hst.length + 3) ++ (0 :: (u16be hst.length ++ (hst ++ rest)))) := by
    rw [drop_add, hdropE, drop2_u16be]
  have hL : u16 d p (off + 2) = hst.length + 5 := u16_of_drop d hdrop2
  have hdrop4 : p.drop (off + 4)
      = u16be (hst.length + 3) ++ (0 :: (u16be hst.length ++ (hst ++ rest))) := by
    rw [show off + 4 = (off + 2) + 2 by omega, drop_add, hdrop2, drop2_u16be]
  have hdrop6 : p.drop (off + 4 + 2) = 0 :: (u16be hst.length ++ (hst ++ rest)) := by
    rw [show off + 4 + 2 = (off + 4) + 2 by omega, drop_add, hdrop4, drop2_u16be]
  have hType : p.getD (off + 4 + 2) d = 0 := getD_of_drop d hdrop6
  have hdrop7 : p.drop (off + 4 + 3) = u16be hst.length ++ (hst ++ rest) := by
    rw [show off + 4 + 3 = (off + 4 + 2) + 1 by omega, drop_add, hdrop6,
      List.drop_succ_cons, List.drop_zero]
  have hHL : u16 d p (off + 4 + 3) = hst.length := u16_of_drop d hdrop7
  have hdrop9 : p.drop (off + 4 + 5) = hst ++ rest := by
    rw [show off + 4 + 5 = (off + 4 + 3) + 2 by omega, drop_add, hdrop7, drop2_u16be]
  rw [sniLoopAux, dif_pos ⟨hend, by omega⟩,
    if_pos ⟨hT, by rw [hL]; omega⟩]
  unfold sniInner
  rw [if_neg (by omega), if_neg (by omega), if_pos hType, if_neg (by omega),
    hHL, if_pos (by omega), hdrop9, List.take_left]
  rw [asciiIgnore_all_lt hh]

/-- On the serialisation of any well-formed ClientHello, `_extract_sni`
returns exactly the encoded hostname (for any junk value `d`). -/
theorem extract_sni_encode (d : Nat) (ch : ClientHello) (wf : ch.WF) :
    extract_sniAux d ch.encode = some ch.hostname := by
  have hlen := encode_length ch wf
  have hE := exts_length ch
  unfold extract_sniAux
  rw [if_neg (by omega), if_neg (by rw [read0 ch d]; simp),
    if_neg (by rw [read5 ch d]; simp), if_neg (by omega), read_sid ch wf d]
  unfold sniAfterSessionId
  rw [if_neg (by omega), read_cs ch wf d]
  unfold sniAfterCiphers
  rw [if_neg (by omega), read_cm ch wf d]
  unfold sniAtExtensions
  rw [if_neg (by omega), read_extlen ch wf d]
  rw [sniLoop_skip d ch.encode ch.extsBefore _ _
    (extBytes (0, sniExtData ch.hostname) ++ extsJoin ch.extsAfter)
    (encode_drop_off0 ch wf) (fun e he => (wf.before e he).1)
    (by omega) (by omega)]
  have hdropHit : ch.encode.drop ((43 + 1 + ch.sessionId.length + 2
      + ch.cipherSuites.length + 1 + ch.compressionMethods.length + 2)
      + (extsJoin ch.extsBefore).length)
      = extBytes (0, sniExtData ch.hostname) ++ extsJoin ch.extsAfter := by
    rw [drop_add, encode_drop_off0 ch wf]
    exact drop_of_len rfl
  exact sniLoop_hit d ch.encode _ _ ch.hostname (extsJoin ch.extsAfter)
    hdropHit (by omega) wf.host

theorem sniLoop_trunc (d : Nat) (p : List Nat) (hst : List Nat) (n : Nat)
    (hnp : n ≤ p.length) :
    ∀ (pre : List (Nat × List Nat)) (off extEnd : Nat) (rest : List Nat),
      p.drop off = extsJoin pre ++ (extBytes (0, sniExtData hst) ++ rest) →
      (∀ e ∈ pre, e.1 ≠ 0) →
      n < off + (extsJoin pre).length + 9 + hst.length →
      n ≤ extEnd →
      sniLoopAux d (p.take n) off extEnd = none := by
  have hqlen : (p.take n).length = n := by
    simp [List.length_take]
    omega
  intro pre
  induction pre with
  | nil =>
    intro off extEnd rest hdrop hne hn hnE
    have hn' : n < off + 9 + hst.length := by simpa [extsJoin] using hn
    by_cases hc : off + 4 ≤ n
    · have hdropFlat : p.drop off
          = u16be 0 ++ (u16be (hst.length + 5) ++ (sniExtData hst ++ rest)) := by
        rw [hdrop, extBytes_eq, sniExtData_length]
        simp [extsJoin]
      have hdrop2 : p.drop (off + 2)
          = u16be (hst.length + 5) ++ (sniExtData hst ++ rest) := by
        rw [drop_add, hdropFlat, drop2_u16be]
      have hT : u16 d (p.take n) off = 0 := by
        rw [u16_take d (by omega)]
        exact u16_of_drop d hdropFlat
      have hL : u16 d (p.take n) (off + 2) = hst.length + 5 := by
        rw [u16_take d (by omega)]
        exact u16_of_drop d hdrop2
      rw [sniLoopAux, dif_pos ⟨by omega, by rw [hqlen]; omega⟩,
        if_neg (by rw [hT, hL, hqlen]; omega), hL]
      rw [sniLoopAux, dif_neg (by rw [hqlen]; omega)]
    · rw [sniLoopAux, dif_neg (by rw [hqlen]; omega)]
  | cons e es ih =>
    intro off extEnd rest hdrop hne hn hnE
    by_cases hc : off + 4 ≤ n
    · have hlenE := extsJoin_cons_length e es
      have hdropFlat : p.drop off = u16be e.1 ++ (u16be e.2.length
          ++ (e.2 ++ (extsJoin es ++ (extBytes (0, sniExtData hst) ++ rest)))) := by
        rw [hdrop, extsJoin_cons, extBytes_eq]
        simp
      have hdrop2 : p.drop (off + 2) = u16be e.2.length
          ++ (e.2 ++ (extsJoin es ++ (extBytes (0, sniExtData hst) ++ rest))) := by
        rw [drop_add, hdropFlat, drop2_u16be]
      have hT : u16 d (p.take n) off = e.1 := by
        rw [u16_take d (by omega)]
        exact u16_of_drop d hdropFlat
      have hL : u16 d (p.take n) (off + 2) = e.2.length := by
        rw [u16_take d (by omega)]
        exact u16_of_drop d hdrop2
      have hne1 : e.1 ≠ 0 := hne e (by simp)
      rw [sniLoopAux, dif_pos ⟨by omega, by rw [hqlen]; omega⟩,
        if_neg (by rw [hT]; exact fun hcon => hne1 hcon.1), hL]
      have hdrop3 : p.drop (off + 4 + e.2.length)
          = extsJoin es ++ (extBytes (0, sniExtData hst) ++ rest) := by
        rw [show off + 4 + e.2.length = (off + 2) + (2 + e.2.length) by omega,
          drop_add, hdrop2, drop_add 2 e.2.length, drop2_u16be]
        exact drop_of_len rfl
      exact ih (off + 4 + e.2.length) extEnd rest hdrop3
        (fun x hx => hne x (by simp [hx])) (by omega) hnE
    · rw [sniLoopAux, dif_neg (by rw [hqlen]; omega)]

/-- Truncating the serialisation of a well-formed ClientHello anywhere
before the end of the SNI hostname makes `_extract_sni` return none. -/
theorem extract_sni_encode_take (d : Nat) (ch : ClientHello) (wf : ch.WF)
    (n : Nat) (hn : n < ch.sniEnd) :
    extract_sniAux d (ch.encode.take n) = none := by
  have hlen := encode_length ch wf
  have hE := exts_length ch
  have hse : ch.sniEnd = 58 + ch.sessionId.length + ch.cipherSuites.length
      + ch.compressionMethods.length + (extsJoin ch.extsBefore).length
      + ch.hostname.length := rfl
  have hnp : n ≤ ch.encode.length := by omega
  have hq : (ch.encode.take n).length = n := by
    simp [List.length_take]
    omega
  unfold extract_sniAux
  by_cases h43 : n < 43
  · rw [if_pos (by rw [hq]; omega)]
  · rw [if_neg (by rw [hq]; omega)]
    have h0 : (ch.encode.take n).getD 0 d = 22 := by
      rw [getD_take d (by omega)]
      exact read0 ch d
    have h5 : (ch.encode.take n).getD 5 d = 1 := by
      rw [getD_take d (by omega)]
      exact read5 ch d
    rw [if_neg (by rw [h0]; simp), if_neg (by rw [h5]; simp)]
    by_cases h44 : 43 ≥ n
    · rw [if_pos (by rw [hq]; omega)]
    · rw [if_neg (by rw [hq]; omega)]
      have hsid : (ch.encode.take n).getD 43 d = ch.sessionId.length := by
        rw [getD_take d (by omega)]
        exact read_sid ch wf d
      rw [hsid]
      unfold sniAfterSessionId
      by_cases hA : 43 + 1 + ch.sessionId.length + 2 > n
      · rw [if_pos (by rw [hq]; omega)]
      · rw [if_neg (by rw [hq]; omega)]
        have hcs : u16 d (ch.encode.take n) (43 + 1 + ch.sessionId.length)
            = ch.cipherSuites.length := by
          rw [u16_take d (by omega)]
          exact read_cs ch wf d
        rw [hcs]
        unfold sniAfterCiphers
        by_cases hB : 43 + 1 + ch.sessionId.length + 2 + ch.cipherSuites.length + 1 > n
        · rw [if_pos (by rw [hq]; omega)]
        · rw [if_neg (by rw [hq]; omega)]
          have hcm : (ch.encode.take n).getD (43 + 1 + ch.sessionId.length + 2
              + ch.cipherSuites.length) d = ch.compressionMethods.length := by
            rw [getD_take d (by omega)]
            exact read_cm ch wf d
          rw [hcm]
          unfold sniAtExtensions
          by_cases hC : 43 + 1 + ch.sessionId.length + 2 + ch.cipherSuites.length
              + 1 + ch.compressionMethods.length + 2 > n
          · rw [if_pos (by rw [hq]; omega)]
          · rw [if_neg (by rw [hq]; omega)]
            have hEx : u16 d (ch.encode.take n) (43 + 1 + ch.sessionId.length + 2
                + ch.cipherSuites.length + 1 + ch.compressionMethods.length)
                = ch.exts.length := by
              rw [u16_take d (by omega)]
              exact read_extlen ch wf d
            rw [hEx]
            exact sniLoop_trunc d ch.encode ch.hostname n hnp ch.extsBefore _ _
              (extsJoin ch.extsAfter) (encode_drop_off0 ch wf)
              (fun e he => (wf.before e he).1) (by omega) (by omega)

/-- Claim C3: for every well-formed TLS ClientHello payload carrying an
SNI (server_name) extension, `_extract_sni` returns exactly the hostname
encoded in the extension; and for every truncation of the payload at any
point before the SNI hostname bytes are complete it returns none. -/
theorem C3_sni_extractor (ch : ClientHello) (hwf : ch.WF) :
    extract_sni ch.encode = some ch.hostname ∧
    ∀ n, n < ch.sniEnd → extract_sni (ch.encode.take n) = none :=
  ⟨extract_sni_encode 0 ch hwf, fun n hn => extract_sni_encode_take 0 ch hwf n hn⟩

/-- Witness for C3 at a concrete ClientHello carrying SNI example.com. -/
theorem C3_sni_extractor_witness :
    extract_sni ch0.encode = some ch0.hostname ∧
    extract_sni (ch0.encode.take 5) = none := by
  have hwf : ch0.WF := by
    constructor <;> first
      | decide
      | (simp only [bytesOk, extOk]; decide)
  exact ⟨(C3_sni_extractor ch0 hwf).1, (C3_sni_extractor ch0 hwf).2 5 (by decide)⟩

/-- Witness for the amended C5: a blocked ClientHello for example.com in
rst mode, and a blocked QUIC packet in rst mode. -/
theorem C5_amended_witness :
    (process_packet cfgRstEx env0 (SimulatorStats.init 0)
        (some ⟨[10], [11], Transport.tcp tcp443, some ch0.encode⟩)).2
      = [Event.inject (rstFor ⟨[10], [11], Transport.tcp tcp443, some ch0.encode⟩ tcp443)
           env0.sendOk,
         Event.verdict Verdict.drop] ∧
    (process_packet cfgRstEx env0 (SimulatorStats.init 0)
        (some ⟨[10], [11], Transport.udp ⟨9, 443⟩, some quicPayload⟩)).2
      = [Event.verdict Verdict.drop] := by
  have hwf : ch0.WF := by
    constructor <;> first
      | decide
      | (simp only [bytesOk, extOk]; decide)
  have h := C5_amended cfgRstEx env0 (SimulatorStats.init 0) [10] [11] tcp443
    ch0.encode rfl
  exact ⟨h.1 ch0.hostname rfl (extract_sni_encode 0 ch0 hwf) (by decide) (by decide),
    h.2.2.2 ⟨9, 443⟩ quicPayload rfl (by decide)⟩

/-! ## C8: totality of the extractors (guarded reads) -/

theorem sniInner_irrel (d : Nat) (p : List Nat) (o : Nat) :
    sniInner d p o = sniInner 0 p o := by
  unfold sniInner
  by_cases h1 : o + 2 > p.length
  · rw [if_pos h1, if_pos h1]
  · rw [if_neg h1, if_neg h1]
    by_cases h2 : o + 2 + 1 > p.length
    · rw [if_pos h2, if_pos h2]
    · rw [if_neg h2, if_neg h2, getD_irrel d 0 (by omega)]
      by_cases h3 : p.getD (o + 2) 0 = 0
      · rw [if_pos h3, if_pos h3]
        by_cases h4 : o + 3 + 2 > p.length
        · rw [if_pos h4, if_pos h4]
        · rw [if_neg h4, if_neg h4, u16_irrel d 0 (by omega)]
      · rw [if_neg h3, if_neg h3]

theorem sniLoopAux_irrel (d : Nat) (p : List Nat) :
    ∀ (fuel offset extEnd : Nat), extEnd - offset ≤ fuel →
      sniLoopAux d p offset extEnd = sniLoopAux 0 p offset extEnd := by
  intro fuel
  induction fuel with
  | zero =>
    intro offset extEnd hf
    conv_lhs => rw [sniLoopAux]
    conv_rhs => rw [sniLoopAux]
    by_cases h : offset + 4 ≤ extEnd ∧ offset + 4 ≤ p.length
    · exfalso
      have := h.1
      omega
    · rw [dif_neg h, dif_neg h]
  | succ k ih =>
    intro offset extEnd hf
    conv_lhs => rw [sniLoopAux]
    conv_rhs => rw [sniLoopAux]
    by_cases h : offset + 4 ≤ extEnd ∧ offset + 4 ≤ p.length
    · have hb := h.2
      rw [dif_pos h, dif_pos h, u16_irrel d 0 (by omega), u16_irrel d 0 (by omega)]
      by_cases h2 : u16 0 p offset = 0 ∧ offset + 4 + u16 0 p (offset + 2) ≤ p.length
      · rw [if_pos h2, if_pos h2, sniInner_irrel]
      · rw [if_neg h2, if_neg h2]
        exact ih _ _ (by have := h.1; omega)
    · rw [dif_neg h, dif_neg h]

theorem extract_sniAux_irrel (d : Nat) (p : List Nat) :
    extract_sniAux d p = extract_sniAux 0 p := by
  unfold extract_sniAux
  by_cases h1 : p.length < 43
  · rw [if_pos h1, if_pos h1]
  · rw [if_neg h1, if_neg h1, getD_irrel d 0 (by omega), getD_irrel d 0 (by omega)]
    by_cases h2 : p.getD 0 0 ≠ 22
    · rw [if_pos h2, if_pos h2]
    · rw [if_neg h2, if_neg h2]
      by_cases h3 : p.getD 5 0 ≠ 1
      · rw [if_pos h3, if_pos h3]
      · rw [if_neg h3, if_neg h3]
        by_cases h4 : 43 ≥ p.length
        · rw [if_pos h4, if_pos h4]
        · rw [if_neg h4, if_neg h4, getD_irrel d 0 (by omega)]
          unfold sniAfterSessionId
          by_cases h5 : 43 + 1 + p.getD 43 0 + 2 > p.length
          · rw [if_pos h5, if_pos h5]
          · rw [if_neg h5, if_neg h5, u16_irrel d 0 (by omega)]
            unfold sniAfterCiphers
            by_cases h6 : 43 + 1 + p.getD 43 0 + 2 + u16 0 p (43 + 1 + p.getD 43 0)
                + 1 > p.length
            · rw [if_pos h6, if_pos h6]
            · rw [if_neg h6, if_neg h6, getD_irrel d 0 (by omega)]
              unfold sniAtExtensions
              by_cases h7 : 43 + 1 + p.getD 43 0 + 2 + u16 0 p (43 + 1 + p.getD 43 0)
                  + 1 + p.getD (43 + 1 + p.getD 43 0 + 2
                    + u16 0 p (43 + 1 + p.getD 43 0)) 0 + 2 > p.length
              · rw [if_pos h7, if_pos h7]
              · rw [if_neg h7, if_neg h7, u16_irrel d 0 (by omega)]
                exact sniLoopAux_irrel d p _ _ _ le_rfl

theorem is_quic_initialAux_irrel (d : Nat) (p : List Nat) :
    is_quic_initialAux d p = is_quic_initialAux 0 p := by
  unfold is_quic_initialAux u32
  by_cases h1 : p.length < 6
  · rw [if_pos h1, if_pos h1]
  · rw [if_neg h1, if_neg h1, getD_irrel d 0 (by omega), getD_irrel d 0 (by omega),
      getD_irrel d 0 (by omega), getD_irrel d 0 (by omega), getD_irrel d 0 (by omega)]

/-- Claim C8: each protocol extractor is a total function of the payload
bytes: the SNI extractor and the QUIC detector are independent of the junk
value an out-of-bounds read would produce (every indexed read in the
source is bounds-checked before use), and every input yields a plain
optional/boolean result, never a fault. -/
theorem C8_extractors_total (p : List Nat) (d : Nat) :
    extract_sniAux d p = extract_sni p ∧
    is_quic_initialAux d p = is_quic_initial p ∧
    (extract_http_host p = none ∨ ∃ v, extract_http_host p = some v) := by
  refine ⟨extract_sniAux_irrel d p, is_quic_initialAux_irrel d p, ?_⟩
  cases h : extract_http_host p with
  | none => exact Or.inl rfl
  | some v => exact Or.inr ⟨v, rfl⟩

/-! ## C7: the Host extractor -/

theorem startsWith_append (m rest : List Nat) : startsWith m (m ++ rest) = true := by
  induction m with
  | nil => rfl
  | cons c cs ih => simp [startsWith, ih]

theorem hostSearch_occ {l g : List Nat} (h : hostSearch l = some g) :
    ∃ i, ciStarts hostTok (l.drop i) = true := by
  induction l with
  | nil => simp [hostSearch] at h
  | cons c rest ih =>
    unfold hostSearch at h
    by_cases hc : ciStarts hostTok (c :: rest) = true
    · exact ⟨0, by simpa using hc⟩
    · rw [if_neg hc] at h
      obtain ⟨i, hi⟩ := ih h
      exact ⟨i + 1, by simpa using hi⟩

theorem hostSearch_skip (b : List Nat) :
    ∀ (a : List Nat),
      (∀ i, i < a.length → ciStarts hostTok ((a ++ b).drop i) = false) →
      hostSearch (a ++ b) = hostSearch b := by
  intro a
  induction a with
  | nil => intro _; rfl
  | cons c a' ih =>
    intro h
    have h0 : ciStarts hostTok (c :: (a' ++ b)) = false := by
      simpa using h 0 (by simp)
    have step : hostSearch (c :: (a' ++ b)) = hostSearch (a' ++ b) := by
      conv_lhs => unfold hostSearch
      rw [if_neg (by simp [h0])]
    rw [List.cons_append, step]
    exact ih (fun i hi => by simpa using h (i + 1) (by simp; omega))

theorem takeLine_append (b : List Nat) :
    ∀ (a : List Nat), (∀ c ∈ a, c ≠ 13 ∧ c ≠ 10) →
      takeLine (a ++ (13 :: b)) = a := by
  intro a
  induction a with
  | nil => simp [takeLine]
  | cons c cs ih =>
    intro ha
    have hc := ha c (by simp)
    have hb1 : (c == 13) = false := by simp [hc.1]
    have hb2 : (c == 10) = false := by simp [hc.2]
    simp only [List.cons_append, takeLine, List.takeWhile_cons, hb1, hb2]
    simpa [takeLine] using ih (fun x hx => ha x (by simp [hx]))

theorem dropWhile_eq_self_of_none {l : List Nat} (h : ∀ c ∈ l, isWsB c = false) :
    l.dropWhile isWsB = l := by
  cases l with
  | nil => rfl
  | cons c cs => simp [List.dropWhile_cons, h c (by simp)]

theorem stripBytes_id {l : List Nat} (h : ∀ c ∈ l, isWsB c = false) :
    stripBytes l = l := by
  unfold stripBytes
  rw [dropWhile_eq_self_of_none h,
    dropWhile_eq_self_of_none (fun c hc => h c (by simpa using hc)),
    List.reverse_reverse]

theorem takeWhile_until_colon (b : List Nat) :
    ∀ (a : List Nat), (∀ c ∈ a, c ≠ 58) →
      (a ++ 58 :: b).takeWhile (fun c => !(c == 58)) = a := by
  intro a
  induction a with
  | nil => simp
  | cons c cs ih =>
    intro ha
    have hc : c ≠ 58 := ha c (by simp)
    have hb : (c == 58) = false := by simp [hc]
    simp only [List.cons_append, List.takeWhile_cons, hb]
    simp [ih (fun x hx => ha x (by simp [hx]))]

theorem tryWs_succ (r : List Nat) (k : Nat) :
    tryWs r (k + 1) = match candAt r (k + 1) with
      | some g => some g
      | none => tryWs r k := rfl

theorem hostSearch_at (host port tail : List Nat) (hasPort : Bool)
    (hhne : host ≠ []) (hws : ∀ c ∈ host, isWsB c = false ∧ c ≠ 58)
    (hport : ∀ c ∈ port, isWsB c = false) :
    hostSearch ([72, 111, 115, 116, 58, 32] ++ (host
      ++ ((if hasPort then 58 :: port else []) ++ (13 :: 10 :: tail))))
      = some (host ++ (if hasPort then 58 :: port else [])) := by
  obtain ⟨hh, ht, rfl⟩ : ∃ hh ht, host = hh :: ht := by
    cases host with
    | nil => exact absurd rfl hhne
    | cons hh ht => exact ⟨hh, ht, rfl⟩
  have hhw : isWsB hh = false := (hws hh (by simp)).1
  have hh13 : hh ≠ 13 := fun he => by rw [he] at hhw; simp [isWsB] at hhw
  have hh10 : hh ≠ 10 := fun he => by rw [he] at hhw; simp [isWsB] at hhw
  have hnl : ∀ c ∈ (hh :: ht) ++ (if hasPort then 58 :: port else []),
      c ≠ 13 ∧ c ≠ 10 := by
    intro c hc
    rcases List.mem_append.mp hc with h1 | h2
    · have hcw := (hws c h1).1
      exact ⟨fun he => by rw [he] at hcw; simp [isWsB] at hcw,
             fun he => by rw [he] at hcw; simp [isWsB] at hcw⟩
    · cases hasPort with
      | false => simp at h2
      | true =>
        simp only [if_true] at h2
        rcases List.mem_cons.mp h2 with h3 | h3
        · subst h3
          exact ⟨by omega, by omega⟩
        · have hcw := hport c h3
          exact ⟨fun he => by rw [he] at hcw; simp [isWsB] at hcw,
                 fun he => by rw [he] at hcw; simp [isWsB] at hcw⟩
  have hline : hh :: (ht ++ ((if hasPort then 58 :: port else []) ++ (13 :: 10 :: tail)))
      = ((hh :: ht) ++ (if hasPort then 58 :: port else [])) ++ (13 :: (10 :: tail)) := by
    simp
  have hcand : candAt (32 :: hh :: (ht ++ ((if hasPort then 58 :: port else [])
      ++ (13 :: 10 :: tail)))) 1
      = some ((hh :: ht) ++ (if hasPort then 58 :: port else [])) := by
    show (if hh = 13 ∨ hh = 10 then none
      else some (takeLine (hh :: (ht ++ ((if hasPort then 58 :: port else [])
        ++ (13 :: 10 :: tail))))))
      = some ((hh :: ht) ++ (if hasPort then 58 :: port else []))
    rw [if_neg (by
      rintro (he | he)
      · exact hh13 he
      · exact hh10 he)]
    rw [hline, takeLine_append _ _ hnl]
  have hgroup : hostGroup (32 :: hh :: (ht ++ ((if hasPort then 58 :: port else [])
      ++ (13 :: 10 :: tail))))
      = some ((hh :: ht) ++ (if hasPort then 58 :: port else [])) := by
    unfold hostGroup
    rw [show (32 :: hh :: (ht ++ ((if hasPort then 58 :: port else [])
        ++ (13 :: 10 :: tail)))).takeWhile isWsB = [32] from by
      rw [List.takeWhile_cons, if_pos (show isWsB 32 = true by decide),
        List.takeWhile_cons, if_neg (by rw [hhw]; simp)]]
    rw [show ([32] : List Nat).length = 0 + 1 from rfl, tryWs_succ,
      show candAt (32 :: hh :: (ht ++ ((if hasPort then 58 :: port else [])
        ++ (13 :: 10 :: tail)))) (0 + 1) = some ((hh :: ht)
        ++ (if hasPort then 58 :: port else [])) from hcand]
  simp only [List.cons_append, List.nil_append]
  conv_lhs => unfold hostSearch
  rw [if_pos (show ciStarts hostTok (72 :: 111 :: 115 :: 116 :: 58 :: 32 :: hh
      :: (ht ++ ((if hasPort then 58 :: port else []) ++ (13 :: 10 :: tail)))) = true
    from by simp [ciStarts, hostTok, lowerByte])]
  rw [show List.drop 5 (72 :: 111 :: 115 :: 116 :: 58 :: 32 :: hh
      :: (ht ++ ((if hasPort then 58 :: port else []) ++ (13 :: 10 :: tail))))
      = 32 :: hh :: (ht ++ ((if hasPort then 58 :: port else []) ++ (13 :: 10 :: tail)))
    from rfl]
  rw [hgroup]
  simp

/-- On a well-formed request the extractor returns exactly the host with
the trailing port stripped. -/
theorem extract_http_host_req (m mid host port tail : List Nat) (hasPort : Bool)
    (hm : m ∈ httpMethods)
    (hall : ∀ b ∈ httpReq m mid host port tail hasPort, b < 128)
    (hpre : ∀ i, i < m.length + mid.length →
      ciStarts hostTok ((httpReq m mid host port tail hasPort).drop i) = false)
    (hhne : host ≠ [])
    (hws : ∀ c ∈ host, isWsB c = false ∧ c ≠ 58)
    (hport : ∀ c ∈ port, isWsB c = false) :
    extract_http_host (httpReq m mid host port tail hasPort) = some host := by
  have hr : httpReq m mid host port tail hasPort
      = (m ++ mid) ++ ([72, 111, 115, 116, 58, 32] ++ (host
        ++ ((if hasPort then 58 :: port else []) ++ (13 :: 10 :: tail)))) := by
    simp [httpReq]
  simp only [extract_http_host, asciiIgnore_all_lt hall]
  rw [if_pos (List.any_eq_true.mpr ⟨m, hm, by
    rw [show httpReq m mid host port tail hasPort = m ++ (mid
      ++ ([72, 111, 115, 116, 58, 32] ++ (host ++ ((if hasPort then 58 :: port else [])
        ++ (13 :: 10 :: tail))))) from rfl]
    exact startsWith_append m _⟩)]
  rw [hr, hostSearch_skip _ (m ++ mid)
    (fun i hi => by rw [← hr]; exact hpre i (by simpa using hi)),
    hostSearch_at host port tail hasPort hhne hws hport]
  show some (if (stripBytes (host ++ (if hasPort then 58 :: port else []))).contains 58
        = true
      then (stripBytes (host ++ (if hasPort then 58 :: port else []))).takeWhile
        (fun c => !(c == 58))
      else stripBytes (host ++ (if hasPort then 58 :: port else []))) = some host
  have hnws : ∀ c ∈ host ++ (if hasPort then 58 :: port else []), isWsB c = false := by
    intro c hc
    rcases List.mem_append.mp hc with h1 | h2
    · exact (hws c h1).1
    · cases hasPort with
      | false => simp at h2
      | true =>
        simp only [if_true] at h2
        rcases List.mem_cons.mp h2 with h3 | h3
        · subst h3
          decide
        · exact hport c h3
  rw [stripBytes_id hnws]
  cases hasPort with
  | false =>
    rw [show (if (false : Bool) = true then 58 :: port else ([] : List Nat)) = []
      from rfl, List.append_nil]
    have hnc : ¬ (host.contains 58 = true) := by
      simp only [List.contains, List.elem_iff]
      exact fun hmem => (hws 58 hmem).2 rfl
    rw [if_neg hnc]
  | true =>
    rw [show (if (true : Bool) = true then 58 :: port else ([] : List Nat)) = 58 :: port
      from rfl]
    have hc : (host ++ 58 :: port).contains 58 = true := by
      simp [List.contains, List.elem_iff]
    rw [if_pos hc, takeWhile_until_colon port host (fun c hcm => (hws c hcm).2)]

/-- Claim C7: the Host extractor returns none unless the permissively
decoded text starts with one of the fixed HTTP method tokens (the token
includes the trailing space) and contains a `Host:` header matched
case-insensitively; and on a well-formed request the returned value is
exactly the Host header value with any trailing `:port` stripped. -/
theorem C7_host_extractor :
    (∀ p, httpMethods.any (fun m => startsWith m (asciiIgnore p)) = false →
      extract_http_host p = none) ∧
    (∀ p, (∀ i, ciStarts hostTok ((asciiIgnore p).drop i) = false) →
      extract_http_host p = none) ∧
    (∀ (m mid host port tail : List Nat) (hasPort : Bool),
      m ∈ httpMethods →
      (∀ b ∈ httpReq m mid host port tail hasPort, b < 128) →
      (∀ i, i < m.length + mid.length →
        ciStarts hostTok ((httpReq m mid host port tail hasPort).drop i) = false) →
      host ≠ [] →
      (∀ c ∈ host, isWsB c = false ∧ c ≠ 58) →
      (∀ c ∈ port, isWsB c = false) →
      extract_http_host (httpReq m mid host port tail hasPort) = some host) := by
  refine ⟨?_, ?_, extract_http_host_req⟩
  · intro p h
    simp [extract_http_host, h]
  · intro p h
    by_cases hm : httpMethods.any (fun m => startsWith m (asciiIgnore p)) = true
    · have hs : hostSearch (asciiIgnore p) = none := by
        cases hh : hostSearch (asciiIgnore p) with
        | none => rfl
        | some g =>
          obtain ⟨i, hi⟩ := hostSearch_occ hh
          rw [h i] at hi
          exact absurd hi (by simp)
      simp [extract_http_host, hm, hs]
    · simp [extract_http_host, hm]

/-- Witness for C7: a payload with no method prefix, a request with no
Host header, and a well-formed GET request with a ported Host header. -/
theorem C7_host_extractor_witness :
    extract_http_host [0] = none ∧
    extract_http_host [71, 69, 84, 32] = none ∧
    extract_http_host (httpReq [71, 69, 84, 32] [47, 13, 10] [101, 120]
      [56, 48] [] true) = some [101, 120] := by
  refine ⟨C7_host_extractor.1 [0] (by decide), ?_, ?_⟩
  · apply C7_host_extractor.2.1 [71, 69, 84, 32]
    intro i
    have ha : asciiIgnore [71, 69, 84, 32] = [71, 69, 84, 32] := by decide
    rw [ha]
    match i with
    | 0 => decide
    | 1 => decide
    | 2 => decide
    | 3 => decide
    | j + 4 =>
      rw [List.drop_eq_nil_of_le (by simp)]
      decide
  · apply C7_host_extractor.2.2 [71, 69, 84, 32] [47, 13, 10] [101, 120] [56, 48] []
      true (by decide) (by decide) ?_ (by decide) (by decide) (by decide)
    intro i hi
    simp only [List.length_cons, List.length_nil] at hi
    match i with
    | 0 => decide
    | 1 => decide
    | 2 => decide
    | 3 => decide
    | 4 => decide
    | 5 => decide
    | 6 => decide
    | j + 7 => omega

/-! ## C6: throttle mode -/

/-- Claim C6: in throttle mode a blocked HTTP request is accepted only
after the synchronous sleep of the configured delay (the sleep event
precedes the accept verdict in the trace), `blocked_http` is incremented
and `passed` is not. -/
theorem C6_throttle (cfg : Config) (env : Env) (s : SimulatorStats)
    (src dst : List Nat) (t : TcpInfo) (payload host : List Nat)
    (hmode : cfg.mode = BlockMode.throttle) (h80 : t.dport = 80)
    (hhost : extract_http_host payload = some host) (hne : host ≠ [])
    (hb : is_domain_blocked cfg.blocked_domains host = true) :
    (process_packet cfg env s (some ⟨src, dst, Transport.tcp t, some payload⟩)).2
      = [Event.sleep cfg.throttle_delay, Event.verdict Verdict.accept] ∧
    (process_packet cfg env s
        (some ⟨src, dst, Transport.tcp t, some payload⟩)).1.blocked_http
      = s.blocked_http + 1 ∧
    (process_packet cfg env s
        (some ⟨src, dst, Transport.tcp t, some payload⟩)).1.passed
      = s.passed := by
  refine ⟨?_, ?_, ?_⟩ <;>
    simp [process_packet, h80, httpStage, hhost, hne, hb, block_packet, hmode,
      update_domain_metrics]

/-- Witness for C6: a throttled HTTP request for blocked example.com. -/
theorem C6_throttle_witness :
    (process_packet cfgThr env0 (SimulatorStats.init 0)
        (some ⟨[10], [11], Transport.tcp tcp80, some httpPayload⟩)).2
      = [Event.sleep cfgThr.throttle_delay, Event.verdict Verdict.accept] ∧
    (process_packet cfgThr env0 (SimulatorStats.init 0)
        (some ⟨[10], [11], Transport.tcp tcp80, some httpPayload⟩)).1.blocked_http
      = (SimulatorStats.init 0).blocked_http + 1 ∧
    (process_packet cfgThr env0 (SimulatorStats.init 0)
        (some ⟨[10], [11], Transport.tcp tcp80, some httpPayload⟩)).1.passed
      = (SimulatorStats.init 0).passed :=
  C6_throttle cfgThr env0 (SimulatorStats.init 0) [10] [11] tcp80 httpPayload
    [101, 120, 97, 109, 112, 108, 101, 46, 99, 111, 109] rfl rfl (by decide)
    (by decide) (by decide)

end DPI
